import Mathlib

/-!
Verification development for the XStream Creative Suite orchestration layer.

The definitions below are a shallow embedding of the workflow state machines
(FaceSwap, BackgroundRemover, CreativeAssistant, CharacterAnimator), the
per-workflow edit history, the session library, and the video poll loop,
translated from the React components and the generation service module.
Backend calls are abstracted by an `Except String _` outcome parameter: the
handler is a pure function of its pre-state and the result the backend call
would have produced.
-/

/-- `ImageFile` from services/geminiService: base64 payload plus MIME type. -/
structure ImageFile where
  data : String
  type : String
deriving Repr, DecidableEq

/-- `LibraryItem` from App.tsx. -/
structure LibraryItem where
  type : String
  imageUrl : String
  originalUrl : Option String := none
  videoUrl : Option String := none
deriving Repr, DecidableEq

/-- The shared application state: the session library plus the toast queue
(App.tsx `libraryCreations` and `toasts`; toasts are modelled by message). -/
structure AppShared where
  library : List LibraryItem
  toasts : List String
deriving Repr, DecidableEq

def appInit : AppShared := { library := [], toasts := [] }

/-- App.tsx `handleCreationComplete`: prepend the new item (most-recent-first)
and emit the save toast. -/
def appCreationComplete (app : AppShared) (item : LibraryItem) : AppShared :=
  { app with library := item :: app.library
             toasts := app.toasts ++ ["Saved to Library!"] }

/-- App.tsx `addToast`. -/
def appToast (app : AppShared) (message : String) : AppShared :=
  { app with toasts := app.toasts ++ [message] }

/-- The data-URL a workflow builds from an `ImageFile`. -/
def toDataUrl (f : ImageFile) : String :=
  "data:" ++ f.type ++ ";base64," ++ f.data

/-- JavaScript array indexing `l[i]` for string arrays, with `undefined`
(a falsy value) modelled as the empty string. -/
def jsIndex (l : List String) (i : Int) : String :=
  if h : 0 ≤ i ∧ i.toNat < l.length then l.get ⟨i.toNat, h.2⟩ else ""

/-- The `e.message || fallback` idiom of the catch blocks: an empty message
(the only falsy string) is replaced by the fallback. -/
def jsMessageOr (msg fallback : String) : String :=
  if msg = "" then fallback else msg

/-! ## FaceSwap workflow (components/FaceSwap) -/

/-- State of the FaceSwap component (the `useState` hooks of `FaceSwap`). -/
structure FaceSwapState where
  isLoading : Bool
  error : Option String
  editHistory : List String
  editHistoryIndex : Int
  originalImage : Option String
  isSaved : Bool
  isEditing : Bool
deriving Repr, DecidableEq

def fsInit : FaceSwapState :=
  { isLoading := false, error := none, editHistory := [], editHistoryIndex := -1
    originalImage := none, isSaved := false, isEditing := false }

/-- `result` derived value: `editHistory.length > 0 ? editHistory[editHistoryIndex] : null`. -/
def fsResult (s : FaceSwapState) : Option String :=
  if s.editHistory = [] then none else some (jsIndex s.editHistory s.editHistoryIndex)

def fsCanUndo (s : FaceSwapState) : Bool := 0 < s.editHistoryIndex

def fsCanRedo (s : FaceSwapState) : Bool := s.editHistoryIndex < s.editHistory.length - 1

/-- `handleFaceSwapGenerate`: clears history, index, saved flag, records the
original image, then either stores the single-artifact result or retains the
failure message. The `outcome` parameter abstracts the awaited
`performFaceSwap sourceImage faceImage` call. -/
def fsGenerate (s : FaceSwapState) (sourceImage : ImageFile)
    (outcome : Except String String) : FaceSwapState :=
  let base := { s with isLoading := false, error := none, editHistory := []
                       editHistoryIndex := -1, isSaved := false
                       originalImage := some (toDataUrl sourceImage) }
  match outcome with
  | .ok imageUrl => { base with editHistory := [imageUrl], editHistoryIndex := 0 }
  | .error msg => { base with error := some (jsMessageOr msg "An unknown error occurred.") }

/-- `handleEditComplete` (FaceSwap): `editHistory.slice(0, editHistoryIndex + 1)`
then push the new artifact and point the cursor at it. -/
def fsEditComplete (s : FaceSwapState) (newImageUrl : String) : FaceSwapState :=
  let newHistory := s.editHistory.take (s.editHistoryIndex + 1).toNat ++ [newImageUrl]
  { s with editHistory := newHistory
           editHistoryIndex := (newHistory.length : Int) - 1
           isEditing := false, isSaved := false }

/-- `handleUndo` (FaceSwap): guarded by `canUndo`. -/
def fsUndo (s : FaceSwapState) : FaceSwapState :=
  if fsCanUndo s then { s with editHistoryIndex := s.editHistoryIndex - 1 } else s

/-- `handleRedo` (FaceSwap): guarded by `canRedo`. -/
def fsRedo (s : FaceSwapState) : FaceSwapState :=
  if fsCanRedo s then { s with editHistoryIndex := s.editHistoryIndex + 1 } else s

/-- `handleSave` (FaceSwap): save once per artifact, the second attempt is a
toast-only no-op. -/
def fsSave (s : FaceSwapState) (app : AppShared) : FaceSwapState × AppShared :=
  match fsResult s, s.originalImage, s.isSaved with
  | some r, some o, false =>
      ({ s with isSaved := true },
       appCreationComplete app { type := "Face Swap", imageUrl := r, originalUrl := some o })
  | _, _, true => (s, appToast app "Already saved!")
  | _, _, _ => (s, app)

/-- `handleStartOver` (FaceSwap). -/
def fsStartOver (_s : FaceSwapState) : FaceSwapState := fsInit

def fsStartEdit (s : FaceSwapState) : FaceSwapState := { s with isEditing := true }

def fsCancelEdit (s : FaceSwapState) : FaceSwapState := { s with isEditing := false }

structure FSConfig where
  fs : FaceSwapState
  app : AppShared
deriving Repr, DecidableEq

def fsInitConfig : FSConfig := { fs := fsInit, app := appInit }

def fsGenerateC (c : FSConfig) (sourceImage : ImageFile)
    (outcome : Except String String) : FSConfig :=
  { c with fs := fsGenerate c.fs sourceImage outcome }

def fsSaveC (c : FSConfig) : FSConfig :=
  let p := fsSave c.fs c.app
  { fs := p.1, app := p.2 }

/-- One user-driven step of the FaceSwap component. The side conditions are
the render conditions under which the corresponding control is mounted
(`renderContent`): the input form is shown only when neither a result nor a
retained error is displayed, and the editor overlay only over a result. -/
inductive FSStep : FSConfig → FSConfig → Prop where
  | generate (c : FSConfig) (sourceImage : ImageFile) (outcome : Except String String) :
      c.fs.isLoading = false → c.fs.error = none →
      (fsResult c.fs = none ∨ c.fs.originalImage = none) →
      FSStep c (fsGenerateC c sourceImage outcome)
  | editComplete (c : FSConfig) (url : String) :
      c.fs.isEditing = true → fsResult c.fs ≠ none → c.fs.originalImage ≠ none →
      FSStep c { c with fs := fsEditComplete c.fs url }
  | undo (c : FSConfig) : FSStep c { c with fs := fsUndo c.fs }
  | redo (c : FSConfig) : FSStep c { c with fs := fsRedo c.fs }
  | save (c : FSConfig) : FSStep c (fsSaveC c)
  | startOver (c : FSConfig) : FSStep c { c with fs := fsStartOver c.fs }
  | startEdit (c : FSConfig) : FSStep c { c with fs := fsStartEdit c.fs }
  | cancelEdit (c : FSConfig) : FSStep c { c with fs := fsCancelEdit c.fs }

inductive FSReachable : FSConfig → Prop where
  | init : FSReachable fsInitConfig
  | step (c c2 : FSConfig) : FSReachable c → FSStep c c2 → FSReachable c2

/-- History invariant of the FaceSwap session: the cursor tracks the list,
`-1` is the empty sentinel, and a non-empty history implies the original
upload has been recorded. -/
def fsInv (s : FaceSwapState) : Prop :=
  -1 ≤ s.editHistoryIndex ∧ s.editHistoryIndex < s.editHistory.length ∧
    (s.editHistoryIndex = -1 ↔ s.editHistory = []) ∧
    (s.editHistory ≠ [] → s.originalImage ≠ none)

/-! ## BackgroundRemover workflow (components/BackgroundRemover) -/

inductive BGStage where
  | input
  | editing
  | result
deriving Repr, DecidableEq

/-- State of the BackgroundRemover component. -/
structure BGState where
  stage : BGStage
  isLoading : Bool
  error : Option String
  originalImage : Option String
  foregroundImage : Option String
  editHistory : List String
  editHistoryIndex : Int
  isSaved : Bool
  isCutoutSaved : Bool
  isEditing : Bool
  backgroundPrompt : String
deriving Repr, DecidableEq

def bgInit : BGState :=
  { stage := .input, isLoading := false, error := none, originalImage := none
    foregroundImage := none, editHistory := [], editHistoryIndex := -1
    isSaved := false, isCutoutSaved := false, isEditing := false, backgroundPrompt := "" }

/-- `finalResult` derived value. -/
def bgFinalResult (s : BGState) : Option String :=
  if s.editHistory = [] then none else some (jsIndex s.editHistory s.editHistoryIndex)

def bgCanUndo (s : BGState) : Bool := 0 < s.editHistoryIndex

def bgCanRedo (s : BGState) : Bool := s.editHistoryIndex < s.editHistory.length - 1

/-- `handleInitialRemoval`: clears history and flags, records the original,
then on success stores the cutout and advances to `editing`; on failure
retains the message and falls back to `input`. `outcome` abstracts the
awaited `performBackgroundRemoval image` call. -/
def bgInitialRemoval (s : BGState) (image : ImageFile)
    (outcome : Except String String) : BGState :=
  let base := { s with isLoading := false, error := none, editHistory := []
                       editHistoryIndex := -1, isSaved := false, isCutoutSaved := false
                       originalImage := some (toDataUrl image) }
  match outcome with
  | .ok imageUrl => { base with foregroundImage := some imageUrl, stage := .editing }
  | .error msg =>
      { base with error := some (jsMessageOr msg "An unknown error occurred."), stage := .input }

/-- `handleGenerateBackground`: early-returns without the foreground cutout or
with a blank prompt; otherwise the composited result becomes a fresh
single-entry history. `outcome` abstracts `compositeWithGeneratedBackground`. -/
def bgGenerateBackground (s : BGState) (outcome : Except String String) : BGState :=
  if s.foregroundImage = none ∨ s.backgroundPrompt.trim = "" then s
  else
    match outcome with
    | .ok r => { s with isLoading := false, error := none
                        editHistory := [r], editHistoryIndex := 0, stage := .result }
    | .error msg =>
        { s with isLoading := false
                 error := some (jsMessageOr msg "Failed to generate background.")
                 stage := .editing }

/-- `handleUploadBackground`: same shape over `compositeWithUploadedBackground`. -/
def bgUploadBackground (s : BGState) (outcome : Except String String) : BGState :=
  if s.foregroundImage = none then s
  else
    match outcome with
    | .ok r => { s with isLoading := false, error := none
                        editHistory := [r], editHistoryIndex := 0, stage := .result }
    | .error msg =>
        { s with isLoading := false
                 error := some (jsMessageOr msg "Failed to composite images.")
                 stage := .editing }

/-- `handleGreenScreen`: same shape over the local `createGreenScreenImage`. -/
def bgGreenScreen (s : BGState) (outcome : Except String String) : BGState :=
  if s.foregroundImage = none then s
  else
    match outcome with
    | .ok r => { s with isLoading := false
                        editHistory := [r], editHistoryIndex := 0, stage := .result }
    | .error msg =>
        { s with isLoading := false
                 error := some (jsMessageOr msg "Failed to apply green screen.")
                 stage := .editing }

/-- `handleEditComplete` (BackgroundRemover): truncate to the cursor then push. -/
def bgEditComplete (s : BGState) (newImageUrl : String) : BGState :=
  let newHistory := s.editHistory.take (s.editHistoryIndex + 1).toNat ++ [newImageUrl]
  { s with editHistory := newHistory
           editHistoryIndex := (newHistory.length : Int) - 1
           isEditing := false, isSaved := false }

def bgUndo (s : BGState) : BGState :=
  if bgCanUndo s then { s with editHistoryIndex := s.editHistoryIndex - 1 } else s

def bgRedo (s : BGState) : BGState :=
  if bgCanRedo s then { s with editHistoryIndex := s.editHistoryIndex + 1 } else s

/-- `handleSave` (BackgroundRemover). -/
def bgSave (s : BGState) (app : AppShared) : BGState × AppShared :=
  match bgFinalResult s, s.originalImage, s.isSaved with
  | some r, some o, false =>
      ({ s with isSaved := true },
       appCreationComplete app { type := "Background Edit", imageUrl := r, originalUrl := some o })
  | _, _, true => (s, appToast app "Already saved!")
  | _, _, _ => (s, app)

/-- `handleSaveCutout`. -/
def bgSaveCutout (s : BGState) (app : AppShared) : BGState × AppShared :=
  match s.foregroundImage, s.isCutoutSaved with
  | some fg, false =>
      ({ s with isCutoutSaved := true },
       appCreationComplete app { type := "Foreground Cutout", imageUrl := fg })
  | _, true => (s, appToast app "Cutout already saved!")
  | _, _ => (s, app)

/-- The error panel dismiss action: `setError(null); setStage('editing')`. -/
def bgTryAgain (s : BGState) : BGState := { s with error := none, stage := .editing }

def bgStartOver (_s : BGState) : BGState := bgInit

structure BGConfig where
  bg : BGState
  app : AppShared
deriving Repr, DecidableEq

def bgInitConfig : BGConfig := { bg := bgInit, app := appInit }

def bgInitialRemovalC (c : BGConfig) (image : ImageFile)
    (outcome : Except String String) : BGConfig :=
  { c with bg := bgInitialRemoval c.bg image outcome }

def bgSaveC (c : BGConfig) : BGConfig :=
  let p := bgSave c.bg c.app
  { bg := p.1, app := p.2 }

def bgSaveCutoutC (c : BGConfig) : BGConfig :=
  let p := bgSaveCutout c.bg c.app
  { bg := p.1, app := p.2 }

/-- One user-driven step of the BackgroundRemover component; side conditions
are the render conditions of `renderContent` (the upload form only at the
`input` stage with no retained error, the editor overlay only over a result). -/
inductive BGStep : BGConfig → BGConfig → Prop where
  | initialRemoval (c : BGConfig) (image : ImageFile) (outcome : Except String String) :
      c.bg.isLoading = false → c.bg.error = none → c.bg.stage = .input →
      BGStep c (bgInitialRemovalC c image outcome)
  | generateBackground (c : BGConfig) (outcome : Except String String) :
      c.bg.stage = .editing →
      BGStep c { c with bg := bgGenerateBackground c.bg outcome }
  | uploadBackground (c : BGConfig) (outcome : Except String String) :
      c.bg.stage = .editing →
      BGStep c { c with bg := bgUploadBackground c.bg outcome }
  | greenScreen (c : BGConfig) (outcome : Except String String) :
      c.bg.stage = .editing →
      BGStep c { c with bg := bgGreenScreen c.bg outcome }
  | editComplete (c : BGConfig) (url : String) :
      c.bg.stage = .result → c.bg.isEditing = true →
      BGStep c { c with bg := bgEditComplete c.bg url }
  | undo (c : BGConfig) : BGStep c { c with bg := bgUndo c.bg }
  | redo (c : BGConfig) : BGStep c { c with bg := bgRedo c.bg }
  | save (c : BGConfig) : BGStep c (bgSaveC c)
  | saveCutout (c : BGConfig) : BGStep c (bgSaveCutoutC c)
  | tryAgain (c : BGConfig) : BGStep c { c with bg := bgTryAgain c.bg }
  | startOver (c : BGConfig) : BGStep c { c with bg := bgStartOver c.bg }
  | setPrompt (c : BGConfig) (p : String) :
      BGStep c { c with bg := { c.bg with backgroundPrompt := p } }

inductive BGReachable : BGConfig → Prop where
  | init : BGReachable bgInitConfig
  | step (c c2 : BGConfig) : BGReachable c → BGStep c c2 → BGReachable c2

/-- History invariant of the BackgroundRemover session, plus: at the `input`
stage the edit history is always empty (so a failing initial removal leaves
it at its pre-invocation value). -/
def bgInv (s : BGState) : Prop :=
  -1 ≤ s.editHistoryIndex ∧ s.editHistoryIndex < s.editHistory.length ∧
    (s.editHistoryIndex = -1 ↔ s.editHistory = []) ∧
    (s.stage = .input → s.editHistory = [])

/-! ## Generation service (services/geminiService) -/

/-- One part of a backend request: `{text}` or `{inlineData}`. -/
inductive RequestPart where
  | text (t : String)
  | image (f : ImageFile)
deriving Repr, DecidableEq

/-- The arguments of a `generateImage` call. The `ratio` field carries the
aspect-ratio argument of the source. -/
structure GenImageRequest where
  prompt : String
  sourceImage : Option ImageFile
  assets : List ImageFile
  ratio : String
deriving Repr, DecidableEq

/-- `generateImage` request assembly: one text part, then
`sourceImage ? [sourceImage, ...assets] : assets` as image parts. -/
def generateImageParts (r : GenImageRequest) : List RequestPart :=
  RequestPart.text r.prompt ::
    (match r.sourceImage with
     | some src => src :: r.assets
     | none => r.assets).map RequestPart.image

/-- The longest run of characters before the first occurrence of `delim`. -/
def takeUntil (delim : Char) : List Char → List Char
  | [] => []
  | c :: rest => if c = delim then [] else c :: takeUntil delim rest

/-- The characters after the first occurrence of `delim`, if any. -/
def dropThrough (delim : Char) : List Char → Option (List Char)
  | [] => none
  | c :: rest => if c = delim then some rest else dropThrough delim rest

/-- The regex match `data:(image\/[^;]+);` of `handleIterateImage`, with the
`image/png` default, modelled on the data-URLs the app produces
(`data:<mime>;base64,<payload>`): the segment between the leading `data:`
and the first `;`, provided it names an image MIME type and a semicolon
actually follows. -/
def extractImageMime (url : String) : String :=
  let cs := url.data
  if ("data:".data).isPrefixOf cs then
    let candidate := takeUntil ';' (cs.drop 5)
    if ("image/".data).isPrefixOf candidate ∧ 6 < candidate.length ∧
        candidate.length < (cs.drop 5).length then
      String.mk candidate
    else "image/png"
  else "image/png"

/-- JavaScript `url.split(',')[1]`: the run between the first and second
comma (to the end when there is no second comma), with `undefined` modelled
as the empty string. -/
def dataAfterComma (url : String) : String :=
  match dropThrough ',' url.data with
  | none => ""
  | some rest => String.mk (takeUntil ',' rest)

/-- `lastImageFile` construction in `handleIterateImage`:
`data: lastImage.split(',')[1]`, `type:` the regex capture above. -/
def dataUrlToImageFile (url : String) : ImageFile :=
  { data := dataAfterComma url, type := extractImageMime url }

/-! ## CreativeAssistant workflow (components/CreativeAssistant) -/

inductive CAStage where
  | prompt
  | content
  | iterate
deriving Repr, DecidableEq

/-- `CreativeControls`; `ratio` is the aspect-ratio field of the source. -/
structure CreativeControls where
  artisticStyle : String
  ratio : String
  genre : String
  lighting : String
  mood : String
  cameraAngle : String
deriving Repr, DecidableEq

def defaultControls : CreativeControls :=
  { artisticStyle := "Photorealistic", ratio := "16:9", genre := "None"
    lighting := "Cinematic", mood := "Neutral", cameraAngle := "Medium Shot" }

/-- State of the CreativeAssistant component. Note that
`currentHistoryIndex` starts at `0` (not `-1`) while `imageHistory` is empty. -/
structure CAState where
  isLoading : Bool
  error : Option String
  topic : String
  sourceImage : Option ImageFile
  assetLibrary : List ImageFile
  generateLyricsFlag : Bool
  controls : CreativeControls
  stage : CAStage
  detailedPrompt : String
  textResult : String
  lyricsResult : String
  imageHistory : List String
  currentHistoryIndex : Int
  savedImageUrls : List String
deriving Repr, DecidableEq

def caInit : CAState :=
  { isLoading := false, error := none, topic := "", sourceImage := none
    assetLibrary := [], generateLyricsFlag := false, controls := defaultControls
    stage := .prompt, detailedPrompt := "", textResult := "", lyricsResult := ""
    imageHistory := [], currentHistoryIndex := 0, savedImageUrls := [] }

/-- The condition under which `handleGenerateContent` starts the lyrics
stream: `generateLyricsFlag && controls.genre !== 'None'`. -/
def lyricsStarted (flag : Bool) (genre : String) : Bool :=
  flag && genre != "None"

/-- `handleGeneratePrompt`: records the inputs, then either stores the drafted
prompt and advances to `content`, or retains the failure. -/
def caGeneratePrompt (s : CAState) (currentTopic : String)
    (currentSourceImage : Option ImageFile) (currentAssets : List ImageFile)
    (currentControls : CreativeControls) (outcome : Except String String) : CAState :=
  let base := { s with isLoading := false, error := none, topic := currentTopic
                       sourceImage := currentSourceImage, assetLibrary := currentAssets
                       controls := currentControls }
  match outcome with
  | .ok p => { base with detailedPrompt := p, stage := .content }
  | .error msg => { base with error := some (jsMessageOr msg "Failed to generate prompt.") }

/-- `handleGenerateContent`: awaits `generateImage` first; on its success the
image becomes a fresh single-entry history, then the text stream (and the
lyrics stream exactly when `lyricsStarted`) run and are joined; the stage
advances to `iterate` only if the join succeeds. `textAcc`/`lyricsAcc` are
the accumulated chunk text at the moment the join settles. -/
def caGenerateContent (s : CAState) (finalPrompt : String)
    (imageOutcome : Except String String) (textAcc lyricsAcc : String)
    (streamOutcome : Except String Unit) : CAState :=
  let base := { s with isLoading := false, error := none, detailedPrompt := finalPrompt
                       textResult := "", lyricsResult := "" }
  match imageOutcome with
  | .error msg =>
      { base with error := some (jsMessageOr msg "An error occurred during content generation.") }
  | .ok imageUrl =>
      let withImage :=
        { base with imageHistory := [imageUrl], currentHistoryIndex := 0
                    textResult := textAcc
                    lyricsResult :=
                      if lyricsStarted s.generateLyricsFlag s.controls.genre then lyricsAcc
                      else "" }
      match streamOutcome with
      | .ok _ => { withImage with stage := .iterate }
      | .error msg =>
          { withImage with
              error := some (jsMessageOr msg "An error occurred during content generation.") }

/-- The `generateImage` call issued by `handleIterateImage`: the newest
(last) history entry as the sole source image, and an explicitly empty
asset list. -/
def caIterateRequest (s : CAState) (iterationPrompt : String) : GenImageRequest :=
  let lastImage := jsIndex s.imageHistory ((s.imageHistory.length : Int) - 1)
  { prompt := iterationPrompt
    sourceImage := some (dataUrlToImageFile lastImage)
    assets := []
    ratio := s.controls.ratio }

/-- `handleIterateImage`: on success appends the new artifact after all
existing entries and moves the cursor to the new last entry. -/
def caIterate (s : CAState) (iterationPrompt : String)
    (outcome : Except String String) : CAState :=
  let _request := caIterateRequest s iterationPrompt
  match outcome with
  | .ok r =>
      let newHistory := s.imageHistory ++ [r]
      { s with isLoading := false, error := none
               imageHistory := newHistory
               currentHistoryIndex := (newHistory.length : Int) - 1 }
  | .error msg =>
      { s with isLoading := false
               error := some (jsMessageOr msg "Failed to iterate on the image.") }

/-- `handleEditComplete` (CreativeAssistant): appends to the full history —
unlike the FaceSwap/BackgroundRemover version it performs no truncation at
the cursor. -/
def caEditComplete (s : CAState) (newImageUrl : String) : CAState :=
  let newHistory := s.imageHistory ++ [newImageUrl]
  { s with imageHistory := newHistory
           currentHistoryIndex := (newHistory.length : Int) - 1 }

/-- The artifact currently displayed: `imageHistory[currentHistoryIndex]`. -/
def caCurrentImage (s : CAState) : String :=
  jsIndex s.imageHistory s.currentHistoryIndex

/-- The library tag of CreativeAssistant saves. The source literal contains
an apostrophe (character 39); it is assembled here character by character. -/
def jacksonsLabel : String := "Jackson" ++ String.singleton (Char.ofNat 39) ++ "s Creative AI"

/-- `handleSaveToLibrary`: append-once keyed on membership of the current
data-URL in `savedImageUrls`; the repeat attempt only toasts. -/
def caSave (s : CAState) (app : AppShared) : CAState × AppShared :=
  let currentImage := caCurrentImage s
  if currentImage != "" && !(s.savedImageUrls.contains currentImage) then
    ({ s with savedImageUrls := s.savedImageUrls ++ [currentImage] },
     appCreationComplete app { type := jacksonsLabel, imageUrl := currentImage })
  else
    (s, appToast app "Already saved!")

/-- `handleStartOver` (CreativeAssistant): note `currentHistoryIndex` is reset
to `0`, not `-1`. -/
def caStartOver (_s : CAState) : CAState := caInit

/-- Thumbnail click in the generation-history strip: `setCurrentHistoryIndex(index)`. -/
def caSelectIndex (s : CAState) (index : Nat) : CAState :=
  { s with currentHistoryIndex := (index : Int) }

/-- `onGoToLatest`: `setCurrentHistoryIndex(imageHistory.length - 1)`. -/
def caGoToLatest (s : CAState) : CAState :=
  { s with currentHistoryIndex := (s.imageHistory.length : Int) - 1 }

structure CAConfig where
  ca : CAState
  app : AppShared
deriving Repr, DecidableEq

def caInitConfig : CAConfig := { ca := caInit, app := appInit }

def caSaveC (c : CAConfig) : CAConfig :=
  let p := caSave c.ca c.app
  { ca := p.1, app := p.2 }

/-- One user-driven step of the CreativeAssistant; side conditions are the
render conditions (the prompt form at stage `prompt`, the content form at
stage `content`, iteration/thumbnails/go-to-latest in the `iterate` results
view, thumbnails only at indices of the rendered history). -/
inductive CAStep : CAConfig → CAConfig → Prop where
  | generatePrompt (c : CAConfig) (topic : String) (src : Option ImageFile)
      (assets : List ImageFile) (controls : CreativeControls)
      (outcome : Except String String) :
      c.ca.stage = .prompt → c.ca.error = none → c.ca.isLoading = false →
      CAStep c { c with ca := caGeneratePrompt c.ca topic src assets controls outcome }
  | generateContent (c : CAConfig) (finalPrompt : String)
      (imageOutcome : Except String String) (textAcc lyricsAcc : String)
      (streamOutcome : Except String Unit) :
      c.ca.stage = .content → c.ca.error = none → c.ca.isLoading = false →
      CAStep c { c with
        ca := caGenerateContent c.ca finalPrompt imageOutcome textAcc lyricsAcc streamOutcome }
  | iterate (c : CAConfig) (iterationPrompt : String) (outcome : Except String String) :
      c.ca.stage = .iterate → c.ca.error = none →
      c.ca.currentHistoryIndex = (c.ca.imageHistory.length : Int) - 1 →
      CAStep c { c with ca := caIterate c.ca iterationPrompt outcome }
  | editComplete (c : CAConfig) (url : String) :
      c.ca.stage = .iterate → c.ca.imageHistory ≠ [] →
      CAStep c { c with ca := caEditComplete c.ca url }
  | selectIndex (c : CAConfig) (index : Nat) :
      c.ca.stage = .iterate → index < c.ca.imageHistory.length →
      CAStep c { c with ca := caSelectIndex c.ca index }
  | goToLatest (c : CAConfig) :
      c.ca.stage = .iterate →
      CAStep c { c with ca := caGoToLatest c.ca }
  | save (c : CAConfig) :
      c.ca.stage = .iterate →
      CAStep c (caSaveC c)
  | toggleLyrics (c : CAConfig) (flag : Bool) :
      CAStep c { c with ca := { c.ca with generateLyricsFlag := flag } }
  | startOver (c : CAConfig) : CAStep c { c with ca := caStartOver c.ca }

inductive CAReachable : CAConfig → Prop where
  | init : CAReachable caInitConfig
  | step (c c2 : CAConfig) : CAReachable c → CAStep c c2 → CAReachable c2

/-- History invariant of the CreativeAssistant session: the cursor is
non-negative and in range whenever the history is non-empty, and the
`iterate` stage is only entered with a non-empty history. (The empty history
carries cursor `0`, not the `-1` sentinel of the other workflows.) -/
def caInv (s : CAState) : Prop :=
  0 ≤ s.currentHistoryIndex ∧
    (s.imageHistory ≠ [] → s.currentHistoryIndex < s.imageHistory.length) ∧
    (s.stage = .iterate → s.imageHistory ≠ [])

/-! ## Content-stage concurrency model (handleGenerateContent success path)

The success path of `handleGenerateContent` is `await generateImage(...)`,
then start the text stream task (and the lyrics stream task exactly when
`lyricsStarted`), then `await Promise.all(streamPromises)`, then
`setStage('iterate')`. Under the single-threaded event loop the observable
event orders are: the image resolution first, then an arbitrary interleaving
of the two stream tasks' events, then the stage advance. -/

/-- Observable events of one content-stage execution. -/
inductive StreamEvent where
  | imageResolved
  | textChunk (i : Nat)
  | textSettled
  | lyricsChunk (i : Nat)
  | lyricsSettled
  | stageAdvanced
deriving Repr, DecidableEq

/-- Event order of the text stream task: its chunks in arrival order, then
its settlement. -/
def textTaskEvents (n : Nat) : List StreamEvent :=
  (List.range n).map StreamEvent.textChunk ++ [StreamEvent.textSettled]

/-- Event order of the lyrics stream task. -/
def lyricsTaskEvents (n : Nat) : List StreamEvent :=
  (List.range n).map StreamEvent.lyricsChunk ++ [StreamEvent.lyricsSettled]

/-- `Interleaving xs ys zs`: `zs` is an order-preserving merge of `xs` and
`ys` — the possible schedules of two concurrently running tasks on the
single-threaded event loop. -/
inductive Interleaving : List StreamEvent → List StreamEvent → List StreamEvent → Prop where
  | nil : Interleaving [] [] []
  | left {x : StreamEvent} {xs ys zs : List StreamEvent} :
      Interleaving xs ys zs → Interleaving (x :: xs) ys (x :: zs)
  | right {y : StreamEvent} {xs ys zs : List StreamEvent} :
      Interleaving xs ys zs → Interleaving xs (y :: ys) (y :: zs)

/-- The set of observable traces of the success path of
`handleGenerateContent`, given the lyrics flag, the selected genre, and the
chunk counts of the two streams. -/
def ContentTrace (flag : Bool) (genre : String) (nText nLyrics : Nat)
    (t : List StreamEvent) : Prop :=
  ∃ s, Interleaving (textTaskEvents nText)
        (if lyricsStarted flag genre then lyricsTaskEvents nLyrics else []) s ∧
      t = StreamEvent.imageResolved :: s ++ [StreamEvent.stageAdvanced]

/-! ## CharacterAnimator workflow and the video poll loop -/

/-- A Veo long-running operation snapshot: the `done` flag and the resolved
download reference `operation.response?.generatedVideos?.[0]?.video?.uri`. -/
structure VideoOp where
  done : Bool
  uri : Option String
deriving Repr, DecidableEq

/-- The poll loop of `animateCharacter`:
`while (!operation.done) { await sleep(10s); operation = getVideosOperation() }`.
`op` is the current operation snapshot (initially the submit response) and
`polls` the stream of status-query responses the backend would return.
Returns the number of wait-then-query cycles performed together with the
final snapshot, or `none` when the supplied trace is exhausted while still
pending. -/
def pollLoop (op : VideoOp) (polls : List VideoOp) : Option (Nat × VideoOp) :=
  if op.done then some (0, op)
  else
    match polls with
    | [] => none
    | p :: rest => (pollLoop p rest).map (fun r => (r.1 + 1, r.2))

/-- The epilogue of `animateCharacter`: throw exactly when no download
reference is present, otherwise hand the reference to the caller. -/
def animateFinish (op : VideoOp) : Except String String :=
  match op.uri with
  | none => .error "Video generation failed to produce a download link."
  | some u => .ok u

/-- `animateCharacter` as a whole: the submit response followed by the poll
loop and the download-reference check, against a given backend trace. -/
def animateCharacter (submitOp : VideoOp) (polls : List VideoOp) :
    Option (Nat × Except String String) :=
  (pollLoop submitOp polls).map (fun r => (r.1, animateFinish r.2))

/-- The credential-error signature `VEO_API_KEY_ERROR_MESSAGE`. -/
def VEO_API_KEY_ERROR_MESSAGE : String := "Requested entity was not found."

/-- Helper of `stringIncludes`: does `sub` occur as a contiguous run of `s`? -/
def charsInclude (s sub : List Char) : Bool :=
  match s with
  | [] => sub.isEmpty
  | c :: rest => sub.isPrefixOf (c :: rest) || charsInclude rest sub

/-- JavaScript `s.includes(sub)`. -/
def stringIncludes (s sub : String) : Bool :=
  charsInclude s.data sub.data

inductive ApiKeyStatus where
  | checking
  | notSelected
  | selected
deriving Repr, DecidableEq

/-- State of the CharacterAnimator component. -/
structure AnimatorState where
  isLoading : Bool
  error : Option String
  resultUrl : Option String
  originalCharacterUrl : Option String
  apiKeyStatus : ApiKeyStatus
deriving Repr, DecidableEq

/-- The authenticated download fetch response, as observed by `handleAnimate`. -/
structure HttpResponse where
  ok : Bool
  statusText : String
  body : String
deriving Repr, DecidableEq

/-- The download half of `handleAnimate`: a non-ok response whose body
contains the credential-error signature re-triggers credential selection and
surfaces the invalid-key message; any other non-ok response surfaces the
generic download failure carrying the response text; an ok response stores
the blob URL and publishes the creation. -/
def animatorDownload (s : AnimatorState) (app : AppShared) (originalUrl : String)
    (response : HttpResponse) (blobUrl : String) : AnimatorState × AppShared :=
  if response.ok then
    ({ s with isLoading := false, resultUrl := some blobUrl },
     appCreationComplete app
       { type := "Character Animation", imageUrl := originalUrl, videoUrl := some blobUrl })
  else if stringIncludes response.body VEO_API_KEY_ERROR_MESSAGE then
    ({ s with isLoading := false, apiKeyStatus := .notSelected
              error := some "API key is invalid. Please select a valid key." }, app)
  else
    ({ s with isLoading := false
              error := some ("Failed to download video: " ++ response.statusText
                             ++ " - " ++ response.body) }, app)

/-- `handleAnimate` end to end: record the original, run `animateCharacter`
(abstracted by `animOutcome`), then on a resolved reference perform the
authenticated download. -/
def handleAnimate (s : AnimatorState) (app : AppShared) (characterImage : ImageFile)
    (animOutcome : Except String String) (response : HttpResponse)
    (blobUrl : String) : AnimatorState × AppShared :=
  let originalUrl := toDataUrl characterImage
  let base := { s with error := none, resultUrl := none
                       originalCharacterUrl := some originalUrl }
  match animOutcome with
  | .error msg =>
      ({ base with isLoading := false
                   error := some (jsMessageOr msg "An unknown error occurred during animation.") },
       app)
  | .ok _videoUrl => animatorDownload base app originalUrl response blobUrl

/-! ## Before/after comparison displays -/

/-- The `BeforeAfterSlider` pair of the FaceSwap result view: it always pairs
the recorded original upload with the current result
(`beforeImage={originalImage} afterImage={result}`). -/
def fsBeforeAfter (s : FaceSwapState) : Option (String × String) :=
  match fsResult s, s.originalImage with
  | some r, some o => some (o, r)
  | _, _ => none

/-- The `BeforeAfterSlider` pair of the BackgroundRemover result view:
`beforeImage={originalImage} afterImage={finalResult}`, shown at stage
`result`. -/
def bgBeforeAfter (s : BGState) : Option (String × String) :=
  if s.stage = .result then
    match bgFinalResult s, s.originalImage with
    | some r, some o => some (o, r)
    | _, _ => none
  else none

/-- What the CreativeAssistant image panel renders. -/
inductive CAImageView where
  | comparison (before after : String)
  | single (image : String)
deriving Repr, DecidableEq

/-- `renderResults`: `previousImage = imageHistory[currentHistoryIndex - 1]`;
a truthy previous image selects the slider over the adjacent pair, otherwise
the current image is rendered alone. -/
def caImageView (s : CAState) : CAImageView :=
  let currentImage := caCurrentImage s
  let previousImage := jsIndex s.imageHistory (s.currentHistoryIndex - 1)
  if previousImage ≠ "" then .comparison previousImage currentImage
  else .single currentImage

/-! ## Concrete states used by the scenario theorems -/

/-- A FaceSwap session holding history `[A, B, C]` with cursor 2 over
original upload `O` (the state after a successful generation and two edits). -/
def fsDemo : FaceSwapState :=
  { fsInit with editHistory := ["A", "B", "C"], editHistoryIndex := 2
                originalImage := some "O" }

/-- A BackgroundRemover session holding history `[A, B, C]` with cursor 2. -/
def bgDemo : BGState :=
  { bgInit with stage := .result, editHistory := ["A", "B", "C"], editHistoryIndex := 2
                originalImage := some "O", foregroundImage := some "F" }

/-- A CreativeAssistant session holding history `[A, B, C]` with the user
viewing entry 0. -/
def caDemo : CAState :=
  { caInit with stage := .iterate, imageHistory := ["A", "B", "C"]
                currentHistoryIndex := 0 }

/-- A FaceSwap session with history `[A, B]`, cursor 1, original `O`. -/
def fsDemoPair : FaceSwapState :=
  { fsInit with editHistory := ["A", "B"], editHistoryIndex := 1
                originalImage := some "O" }


/-! ## Invariant preservation -/


theorem fsInv_init : fsInv fsInit := by
  simp [fsInv, fsInit]

theorem fsInv_step {c c2 : FSConfig} (h : fsInv c.fs) (hs : FSStep c c2) :
    fsInv c2.fs := by
  obtain ⟨h1, h2, h3, h4⟩ := h
  cases hs with
  | generate src outcome hl he hf =>
      cases outcome <;> simp [fsGenerateC, fsGenerate, fsInv]
  | editComplete url hed hres horig =>
      simp only [fsInv, fsEditComplete]
      refine ⟨?_, ?_, ?_, fun _ => horig⟩
      · simp [List.length_take]; omega
      · simp [List.length_take]
      · simp [List.length_take]; omega
  | undo =>
      simp only [fsUndo, fsCanUndo]
      split_ifs with hu
      · simp only [decide_eq_true_eq] at hu
        simp only [fsInv]
        refine ⟨by omega, by omega, ?_, h4⟩
        constructor
        · intro hi; omega
        · intro he
          have := h3.2 he
          omega
      · exact ⟨h1, h2, h3, h4⟩
  | redo =>
      simp only [fsRedo, fsCanRedo]
      split_ifs with hr
      · simp only [decide_eq_true_eq] at hr
        simp only [fsInv]
        refine ⟨by omega, by omega, ?_, h4⟩
        constructor
        · intro hi; omega
        · intro he
          have := h3.2 he
          simp [he] at hr
          omega
      · exact ⟨h1, h2, h3, h4⟩
  | save =>
      have hkeep : (fsSaveC c).fs.editHistory = c.fs.editHistory ∧
          (fsSaveC c).fs.editHistoryIndex = c.fs.editHistoryIndex ∧
          (fsSaveC c).fs.originalImage = c.fs.originalImage := by
        unfold fsSaveC fsSave
        rcases fsResult c.fs with _ | r <;>
          rcases ho : c.fs.originalImage with _ | o <;>
          rcases c.fs.isSaved with _ | _ <;> simp [ho]
      obtain ⟨e1, e2, e3⟩ := hkeep
      refine ⟨?_, ?_, ?_, ?_⟩
      · rw [e2]; exact h1
      · rw [e2, e1]; exact h2
      · rw [e2, e1]; exact h3
      · rw [e1, e3]; exact h4
  | startOver => simp [fsStartOver, fsInit, fsInv]
  | startEdit => exact ⟨h1, h2, h3, h4⟩
  | cancelEdit => exact ⟨h1, h2, h3, h4⟩

theorem bgInv_init : bgInv bgInit := by
  simp [bgInv, bgInit]

theorem bgInv_step {c c2 : BGConfig} (h : bgInv c.bg) (hs : BGStep c c2) :
    bgInv c2.bg := by
  obtain ⟨h1, h2, h3, h4⟩ := h
  cases hs with
  | initialRemoval image outcome hl he hst =>
      cases outcome <;> simp [bgInitialRemovalC, bgInitialRemoval, bgInv]
  | generateBackground outcome hst =>
      unfold bgGenerateBackground
      split_ifs with hg
      · exact ⟨h1, h2, h3, h4⟩
      · (cases outcome <;> simp [bgInv]); exact ⟨h1, h2, h3⟩
  | uploadBackground outcome hst =>
      unfold bgUploadBackground
      split_ifs with hg
      · exact ⟨h1, h2, h3, h4⟩
      · (cases outcome <;> simp [bgInv]); exact ⟨h1, h2, h3⟩
  | greenScreen outcome hst =>
      unfold bgGreenScreen
      split_ifs with hg
      · exact ⟨h1, h2, h3, h4⟩
      · (cases outcome <;> simp [bgInv]); exact ⟨h1, h2, h3⟩
  | editComplete url hst hed =>
      simp only [bgInv, bgEditComplete]
      refine ⟨?_, ?_, ?_, ?_⟩
      · simp [List.length_take]; omega
      · simp [List.length_take]
      · simp [List.length_take]; omega
      · intro hstage; simp [hst] at hstage
  | undo =>
      simp only [bgUndo, bgCanUndo]
      split_ifs with hu
      · simp only [decide_eq_true_eq] at hu
        simp only [bgInv]
        refine ⟨by omega, by omega, ?_, h4⟩
        constructor
        · intro hi; omega
        · intro he
          have := h3.2 he
          omega
      · exact ⟨h1, h2, h3, h4⟩
  | redo =>
      simp only [bgRedo, bgCanRedo]
      split_ifs with hr
      · simp only [decide_eq_true_eq] at hr
        simp only [bgInv]
        refine ⟨by omega, by omega, ?_, h4⟩
        constructor
        · intro hi; omega
        · intro he
          have := h3.2 he
          simp [he] at hr
          omega
      · exact ⟨h1, h2, h3, h4⟩
  | save =>
      have hkeep : (bgSaveC c).bg.editHistory = c.bg.editHistory ∧
          (bgSaveC c).bg.editHistoryIndex = c.bg.editHistoryIndex ∧
          (bgSaveC c).bg.stage = c.bg.stage := by
        unfold bgSaveC bgSave
        rcases bgFinalResult c.bg with _ | r <;>
          rcases ho : c.bg.originalImage with _ | o <;>
          rcases c.bg.isSaved with _ | _ <;> simp [ho]
      obtain ⟨e1, e2, e3⟩ := hkeep
      refine ⟨?_, ?_, ?_, ?_⟩
      · rw [e2]; exact h1
      · rw [e2, e1]; exact h2
      · rw [e2, e1]; exact h3
      · rw [e3, e1]; exact h4
  | saveCutout =>
      have hkeep : (bgSaveCutoutC c).bg.editHistory = c.bg.editHistory ∧
          (bgSaveCutoutC c).bg.editHistoryIndex = c.bg.editHistoryIndex ∧
          (bgSaveCutoutC c).bg.stage = c.bg.stage := by
        unfold bgSaveCutoutC bgSaveCutout
        rcases hf : c.bg.foregroundImage with _ | fg <;>
          rcases c.bg.isCutoutSaved with _ | _ <;> simp [hf]
      obtain ⟨e1, e2, e3⟩ := hkeep
      refine ⟨?_, ?_, ?_, ?_⟩
      · rw [e2]; exact h1
      · rw [e2, e1]; exact h2
      · rw [e2, e1]; exact h3
      · rw [e3, e1]; exact h4
  | tryAgain =>
      refine ⟨h1, h2, h3, ?_⟩
      intro hstage
      simp [bgTryAgain] at hstage
  | startOver => simp [bgStartOver, bgInit, bgInv]
  | setPrompt p => exact ⟨h1, h2, h3, h4⟩

theorem bgInv_reachable {c : BGConfig} (h : BGReachable c) : bgInv c.bg := by
  induction h with
  | init => exact bgInv_init
  | step c c2 _ hs ih => exact bgInv_step ih hs

theorem caInv_init : caInv caInit := by
  simp [caInv, caInit]

theorem caInv_step {c c2 : CAConfig} (h : caInv c.ca) (hs : CAStep c c2) :
    caInv c2.ca := by
  obtain ⟨h1, h2, h3⟩ := h
  cases hs with
  | generatePrompt topic src assets controls outcome hst he hl =>
      cases outcome with
      | ok p =>
          refine ⟨h1, h2, ?_⟩
          intro hit
          simp [caGeneratePrompt] at hit
      | error msg =>
          refine ⟨h1, h2, ?_⟩
          intro hit
          simp [caGeneratePrompt] at hit
          rw [hst] at hit
          cases hit
  | generateContent finalPrompt imageOutcome textAcc lyricsAcc streamOutcome hst he hl =>
      cases imageOutcome with
      | ok imageUrl =>
          cases streamOutcome with
          | ok u => simp [caGenerateContent, caInv]
          | error msg => simp [caGenerateContent, caInv]
      | error msg =>
          refine ⟨h1, h2, ?_⟩
          intro hit
          simp [caGenerateContent] at hit
          rw [hst] at hit
          cases hit
  | iterate iterationPrompt outcome hst he hv =>
      cases outcome with
      | ok r => simp [caIterate, caInv]
      | error msg =>
          refine ⟨h1, h2, ?_⟩
          intro _
          simpa [caIterate] using h3 hst
  | editComplete url hst hne =>
      simp [caEditComplete, caInv]
  | selectIndex index hst hlt =>
      refine ⟨?_, ?_, ?_⟩
      · simp [caSelectIndex]
      · intro _
        simp only [caSelectIndex]
        omega
      · intro _
        simpa [caSelectIndex] using h3 hst
  | goToLatest hst =>
      have hne := h3 hst
      have hpos : 0 < c.ca.imageHistory.length := List.length_pos.mpr hne
      refine ⟨?_, ?_, ?_⟩
      · simp only [caGoToLatest]
        omega
      · intro _
        simp only [caGoToLatest]
        omega
      · intro _
        simpa [caGoToLatest] using hne
  | save hst =>
      have hkeep : (caSaveC c).ca.imageHistory = c.ca.imageHistory ∧
          (caSaveC c).ca.currentHistoryIndex = c.ca.currentHistoryIndex ∧
          (caSaveC c).ca.stage = c.ca.stage := by
        simp only [caSaveC, caSave]
        split_ifs <;> simp
      obtain ⟨e1, e2, e3⟩ := hkeep
      refine ⟨?_, ?_, ?_⟩
      · rw [e2]; exact h1
      · rw [e2, e1]; exact h2
      · rw [e3, e1]; exact h3
  | toggleLyrics flag => exact ⟨h1, h2, h3⟩
  | startOver => simp [caStartOver, caInit, caInv]

theorem caInv_reachable {c : CAConfig} (h : CAReachable c) : caInv c.ca := by
  induction h with
  | init => exact caInv_init
  | step c c2 _ hs ih => exact caInv_step ih hs

theorem fsInv_reachable {c : FSConfig} (h : FSReachable c) : fsInv c.fs := by
  induction h with
  | init => exact fsInv_init
  | step c c2 _ hs ih => exact fsInv_step ih hs

/-! ## Interleaving and poll-loop lemmas -/

theorem Interleaving.mem {xs ys zs : List StreamEvent} (h : Interleaving xs ys zs) :
    ∀ a, a ∈ zs ↔ a ∈ xs ∨ a ∈ ys := by
  induction h with
  | nil => simp
  | left _ ih => intro a; simp [ih a]; tauto
  | right _ ih => intro a; simp [ih a]; tauto

theorem mem_textTaskEvents {e : StreamEvent} {n : Nat} (h : e ∈ textTaskEvents n) :
    (∃ i, e = .textChunk i) ∨ e = .textSettled := by
  simp [textTaskEvents] at h
  rcases h with ⟨i, _, rfl⟩ | rfl
  · exact Or.inl ⟨i, rfl⟩
  · exact Or.inr rfl

theorem mem_lyricsTaskEvents {e : StreamEvent} {n : Nat} (h : e ∈ lyricsTaskEvents n) :
    (∃ i, e = .lyricsChunk i) ∨ e = .lyricsSettled := by
  simp [lyricsTaskEvents] at h
  rcases h with ⟨i, _, rfl⟩ | rfl
  · exact Or.inl ⟨i, rfl⟩
  · exact Or.inr rfl

theorem pollLoop_first_done (submitOp d : VideoOp) (pre rest : List VideoOp)
    (hsub : submitOp.done = false) (hpre : ∀ p ∈ pre, p.done = false)
    (hd : d.done = true) :
    pollLoop submitOp (pre ++ d :: rest) = some (pre.length + 1, d) := by
  induction pre generalizing submitOp with
  | nil =>
      rw [pollLoop.eq_def]
      simp only [hsub, Bool.false_eq_true, if_false, List.nil_append]
      rw [pollLoop.eq_def]
      simp [hd]
  | cons p pre ih =>
      rw [pollLoop.eq_def]
      simp only [hsub, Bool.false_eq_true, if_false, List.cons_append]
      rw [ih p (hpre p (by simp)) (fun q hq => hpre q (by simp [hq]))]
      simp

/-! ## Claim theorems -/

/-- C1 counterexample: the claim asserts the truncate-on-append law for the
CreativeAssistant history as well, but its handleEditComplete appends to the
full history without truncation: from history [A, B, C] with the user
viewing entry 0, appending D yields [A, B, C, D] with cursor 3, not [A, D]
with cursor 1. -/
theorem C1_counterexample :
    caDemo.imageHistory = ["A", "B", "C"] ∧ caDemo.currentHistoryIndex = 0 ∧
    (caEditComplete caDemo "D").imageHistory = ["A", "B", "C", "D"] ∧
    (caEditComplete caDemo "D").currentHistoryIndex = 3 ∧
    (caEditComplete caDemo "D").imageHistory ≠ ["A", "D"] := by
  refine ⟨rfl, rfl, rfl, rfl, ?_⟩
  decide

/-- C1 (amended): append truncates items to the prefix up to the cursor and
sets the cursor to the new last index in the FaceSwap and BackgroundRemover
histories — in particular from history [A, B, C] with cursor 2, two undos
reach cursor 0 with current A, and a subsequent append of D yields [A, D]
with cursor 1 — while the CreativeAssistant append keeps every existing
entry and places the new artifact after them. -/
theorem C1_amended_theorem :
    ((fsUndo (fsUndo fsDemo)).editHistoryIndex = 0 ∧
      fsResult (fsUndo (fsUndo fsDemo)) = some "A" ∧
      (fsEditComplete (fsUndo (fsUndo fsDemo)) "D").editHistory = ["A", "D"] ∧
      (fsEditComplete (fsUndo (fsUndo fsDemo)) "D").editHistoryIndex = 1) ∧
    ((bgUndo (bgUndo bgDemo)).editHistoryIndex = 0 ∧
      bgFinalResult (bgUndo (bgUndo bgDemo)) = some "A" ∧
      (bgEditComplete (bgUndo (bgUndo bgDemo)) "D").editHistory = ["A", "D"] ∧
      (bgEditComplete (bgUndo (bgUndo bgDemo)) "D").editHistoryIndex = 1) ∧
    (∀ (s : FaceSwapState) (a : String), 0 ≤ s.editHistoryIndex →
        s.editHistoryIndex < s.editHistory.length →
        (fsEditComplete s a).editHistory
            = s.editHistory.take (s.editHistoryIndex + 1).toNat ++ [a] ∧
        (fsEditComplete s a).editHistoryIndex = s.editHistoryIndex + 1) ∧
    (∀ (s : BGState) (a : String), 0 ≤ s.editHistoryIndex →
        s.editHistoryIndex < s.editHistory.length →
        (bgEditComplete s a).editHistory
            = s.editHistory.take (s.editHistoryIndex + 1).toNat ++ [a] ∧
        (bgEditComplete s a).editHistoryIndex = s.editHistoryIndex + 1) ∧
    (∀ (s : CAState) (a : String),
        (caEditComplete s a).imageHistory = s.imageHistory ++ [a] ∧
        (caEditComplete s a).imageHistory.length = s.imageHistory.length + 1) := by
  refine ⟨by decide, by decide, ?_, ?_, ?_⟩
  · intro s a h0 hlt
    refine ⟨rfl, ?_⟩
    simp [fsEditComplete, List.length_take]
    omega
  · intro s a h0 hlt
    refine ⟨rfl, ?_⟩
    simp [bgEditComplete, List.length_take]
    omega
  · intro s a
    exact ⟨rfl, by simp [caEditComplete]⟩

/-- C1 witness: the general truncate-append law applied to the concrete
FaceSwap state with history [A, B, C] and cursor 2. -/
theorem C1_witness :
    0 ≤ fsDemo.editHistoryIndex ∧
    fsDemo.editHistoryIndex < fsDemo.editHistory.length ∧
    (fsEditComplete fsDemo "E").editHistory
        = fsDemo.editHistory.take (fsDemo.editHistoryIndex + 1).toNat ++ ["E"] ∧
    (fsEditComplete fsDemo "E").editHistoryIndex = fsDemo.editHistoryIndex + 1 :=
  ⟨by decide, by decide,
   (C1_amended_theorem.2.2.1 fsDemo "E" (by decide) (by decide)).1,
   (C1_amended_theorem.2.2.1 fsDemo "E" (by decide) (by decide)).2⟩

/-- C2 counterexample: the CreativeAssistant session starts (and is reset by
start-over) with an empty history whose cursor is 0, not the claimed -1
sentinel, so the claimed invariant fails at a reachable state. -/
theorem C2_counterexample :
    CAReachable caInitConfig ∧ caInitConfig.ca.imageHistory = [] ∧
    caInitConfig.ca.currentHistoryIndex = 0 ∧
    ¬caInitConfig.ca.currentHistoryIndex = -1 ∧
    (caStartOver caDemo).imageHistory = [] ∧
    (caStartOver caDemo).currentHistoryIndex = 0 :=
  ⟨CAReachable.init, rfl, rfl, by decide, rfl, rfl⟩

/-- C2 (amended): for every reachable configuration, the FaceSwap and
BackgroundRemover histories satisfy -1 <= cursor < length with cursor = -1
exactly when the history is empty; the CreativeAssistant history satisfies
0 <= cursor, with cursor < length whenever it is non-empty (its empty
history carries cursor 0 rather than the -1 sentinel). -/
theorem C2_amended_theorem :
    (∀ c : FSConfig, FSReachable c →
        -1 ≤ c.fs.editHistoryIndex ∧ c.fs.editHistoryIndex < c.fs.editHistory.length ∧
        (c.fs.editHistoryIndex = -1 ↔ c.fs.editHistory = [])) ∧
    (∀ c : BGConfig, BGReachable c →
        -1 ≤ c.bg.editHistoryIndex ∧ c.bg.editHistoryIndex < c.bg.editHistory.length ∧
        (c.bg.editHistoryIndex = -1 ↔ c.bg.editHistory = [])) ∧
    (∀ c : CAConfig, CAReachable c →
        0 ≤ c.ca.currentHistoryIndex ∧
        (c.ca.imageHistory ≠ [] → c.ca.currentHistoryIndex < c.ca.imageHistory.length)) := by
  refine ⟨fun c h => ?_, fun c h => ?_, fun c h => ?_⟩
  · obtain ⟨h1, h2, h3, _⟩ := fsInv_reachable h
    exact ⟨h1, h2, h3⟩
  · obtain ⟨h1, h2, h3, _⟩ := bgInv_reachable h
    exact ⟨h1, h2, h3⟩
  · obtain ⟨h1, h2, _⟩ := caInv_reachable h
    exact ⟨h1, h2⟩

/-- A sample image file used by the witness configurations. -/
def demoImage : ImageFile := { data := "QUJD", type := "image/png" }

/-- A FaceSwap configuration reached from the initial one by a successful
generation step. -/
def fsWitnessConfig : FSConfig := fsGenerateC fsInitConfig demoImage (.ok "u")

theorem fsWitnessConfig_reachable : FSReachable fsWitnessConfig :=
  FSReachable.step _ _ FSReachable.init
    (FSStep.generate fsInitConfig demoImage (.ok "u") rfl rfl (Or.inl (by decide)))

/-- C2 witness: the invariant evaluated on a configuration reached by an
actual generation step. -/
theorem C2_witness :
    -1 ≤ fsWitnessConfig.fs.editHistoryIndex ∧
    fsWitnessConfig.fs.editHistoryIndex < fsWitnessConfig.fs.editHistory.length ∧
    (fsWitnessConfig.fs.editHistoryIndex = -1 ↔ fsWitnessConfig.fs.editHistory = []) :=
  C2_amended_theorem.1 fsWitnessConfig fsWitnessConfig_reachable

/-- C3: in the character-animation workflow a non-ok download response whose
body contains the credential-error signature re-triggers credential
selection (apiKeyStatus becomes notSelected) and surfaces the invalid-key
message; every other non-ok response surfaces the generic download failure
carrying the response text. -/
theorem C3_theorem :
    ∀ (s : AnimatorState) (app : AppShared) (originalUrl : String)
      (r : HttpResponse) (blobUrl : String),
      r.ok = false →
      (stringIncludes r.body VEO_API_KEY_ERROR_MESSAGE = true →
        (animatorDownload s app originalUrl r blobUrl).1.apiKeyStatus = .notSelected ∧
        (animatorDownload s app originalUrl r blobUrl).1.error
            = some "API key is invalid. Please select a valid key.") ∧
      (stringIncludes r.body VEO_API_KEY_ERROR_MESSAGE = false →
        (animatorDownload s app originalUrl r blobUrl).1.error
            = some ("Failed to download video: " ++ r.statusText ++ " - " ++ r.body) ∧
        (animatorDownload s app originalUrl r blobUrl).1.apiKeyStatus = s.apiKeyStatus) := by
  intro s app originalUrl r blobUrl hok
  constructor
  · intro hsig
    simp [animatorDownload, hok, hsig]
  · intro hsig
    simp [animatorDownload, hok, hsig]

/-- The 404 download response of the spec scenario: body carrying the known
credential-error signature. -/
def demo404 : HttpResponse :=
  { ok := false, statusText := "Not Found"
    body := "Error 404: Requested entity was not found." }

def demoAnimator : AnimatorState :=
  { isLoading := true, error := none, resultUrl := none
    originalCharacterUrl := some "O", apiKeyStatus := .selected }

/-- C3 witness: the spec scenario, a 404 whose body contains the signature,
ends with the credential re-selection prompt and the invalid-key message. -/
theorem C3_witness :
    (animatorDownload demoAnimator appInit "O" demo404 "blob").1.apiKeyStatus
        = ApiKeyStatus.notSelected ∧
    (animatorDownload demoAnimator appInit "O" demo404 "blob").1.error
        = some "API key is invalid. Please select a valid key." :=
  (C3_theorem demoAnimator appInit "O" demo404 "blob" rfl).1 (by decide)

/-- C4: every observable trace of the content stage resolves the image
first, starts the lyrics stream exactly when the flag is set with a
non-default genre, and advances the stage only at the very end, after the
settlement events of every started stream — whichever stream settles
first. -/
theorem C4_theorem :
    ∀ (flag : Bool) (genre : String) (nText nLyrics : Nat) (t : List StreamEvent),
      ContentTrace flag genre nText nLyrics t →
      ∃ s, t = StreamEvent.imageResolved :: s ++ [StreamEvent.stageAdvanced] ∧
        StreamEvent.imageResolved ∉ s ∧
        StreamEvent.stageAdvanced ∉ s ∧
        StreamEvent.textSettled ∈ s ∧
        (StreamEvent.lyricsSettled ∈ s ↔ lyricsStarted flag genre = true) := by
  intro flag genre nText nLyrics t ht
  obtain ⟨s, hint, rfl⟩ := ht
  refine ⟨s, rfl, ?_, ?_, ?_, ?_⟩
  · intro hmem
    rcases (hint.mem _).mp hmem with h | h
    · rcases mem_textTaskEvents h with ⟨i, h⟩ | h <;> cases h
    · split at h
      · rcases mem_lyricsTaskEvents h with ⟨i, h⟩ | h <;> cases h
      · cases h
  · intro hmem
    rcases (hint.mem _).mp hmem with h | h
    · rcases mem_textTaskEvents h with ⟨i, h⟩ | h <;> cases h
    · split at h
      · rcases mem_lyricsTaskEvents h with ⟨i, h⟩ | h <;> cases h
      · cases h
  · exact (hint.mem _).mpr (Or.inl (by simp [textTaskEvents]))
  · constructor
    · intro hmem
      rcases (hint.mem _).mp hmem with h | h
      · rcases mem_textTaskEvents h with ⟨i, h⟩ | h <;> cases h
      · by_contra hns
        rw [if_neg (by simpa using hns)] at h
        cases h
    · intro hstart
      exact (hint.mem _).mpr (Or.inr (by rw [if_pos hstart]; simp [lyricsTaskEvents]))

/-- The spec scenario trace: lyrics enabled with genre Rock, one chunk per
stream, the lyrics stream finishing before the text stream. -/
def c4DemoTrace : List StreamEvent :=
  [.imageResolved, .lyricsChunk 0, .lyricsSettled, .textChunk 0, .textSettled, .stageAdvanced]

/-- C4 witness: the scenario trace decomposes as required — both settlement
events lie strictly between the image resolution and the stage advance. -/
theorem C4_witness :
    ∃ s, c4DemoTrace = StreamEvent.imageResolved :: s ++ [StreamEvent.stageAdvanced] ∧
      StreamEvent.imageResolved ∉ s ∧
      StreamEvent.stageAdvanced ∉ s ∧
      StreamEvent.textSettled ∈ s ∧
      (StreamEvent.lyricsSettled ∈ s ↔ lyricsStarted true "Rock" = true) :=
  C4_theorem true "Rock" 1 1 c4DemoTrace
    ⟨[.lyricsChunk 0, .lyricsSettled, .textChunk 0, .textSettled], by
      have h1 : textTaskEvents 1 = [StreamEvent.textChunk 0, StreamEvent.textSettled] := by
        decide
      have h2 : (if lyricsStarted true "Rock" then lyricsTaskEvents 1 else [])
          = [StreamEvent.lyricsChunk 0, StreamEvent.lyricsSettled] := by decide
      rw [h1, h2]
      exact .right (.right (.left (.left .nil))), by decide⟩

/-- C5: when a generation call or the video download fails, the workflow
retains the failure message in its error state, the session library is
untouched, and the edit history is unchanged from its pre-invocation value
(for the generate handlers, which reset the history before calling the
backend, the render conditions plus the reachability invariant force that
pre-invocation history to be empty). -/
theorem C5_theorem :
    (∀ (c : FSConfig) (src : ImageFile) (msg : String),
        FSReachable c → (fsResult c.fs = none ∨ c.fs.originalImage = none) →
        msg ≠ "" →
        (fsGenerateC c src (.error msg)).fs.error = some msg ∧
        (fsGenerateC c src (.error msg)).fs.editHistory = c.fs.editHistory ∧
        (fsGenerateC c src (.error msg)).app.library = c.app.library ∧
        (fsGenerateC c src (.error msg)).app.toasts = c.app.toasts) ∧
    (∀ (c : BGConfig) (img : ImageFile) (msg : String),
        BGReachable c → c.bg.stage = .input → msg ≠ "" →
        (bgInitialRemovalC c img (.error msg)).bg.error = some msg ∧
        (bgInitialRemovalC c img (.error msg)).bg.stage = .input ∧
        (bgInitialRemovalC c img (.error msg)).bg.editHistory = c.bg.editHistory ∧
        (bgInitialRemovalC c img (.error msg)).app.library = c.app.library) ∧
    (∀ (s : AnimatorState) (app : AppShared) (o : String) (r : HttpResponse) (b : String),
        r.ok = false →
        ((animatorDownload s app o r b).1.error).isSome = true ∧
        (animatorDownload s app o r b).2.library = app.library ∧
        (animatorDownload s app o r b).1.resultUrl = s.resultUrl) := by
  refine ⟨?_, ?_, ?_⟩
  · intro c src msg hr hvis hmsg
    have hhist : c.fs.editHistory = [] := by
      rcases hvis with h | h
      · by_contra hne
        simp [fsResult, hne] at h
      · have h4 := (fsInv_reachable hr).2.2.2
        by_contra hne
        exact (h4 hne) h
    refine ⟨?_, ?_, rfl, rfl⟩
    · simp [fsGenerateC, fsGenerate, jsMessageOr, hmsg]
    · simp [fsGenerateC, fsGenerate, hhist]
  · intro c img msg hr hst hmsg
    have hhist : c.bg.editHistory = [] := (bgInv_reachable hr).2.2.2 hst
    refine ⟨?_, ?_, ?_, rfl⟩
    · simp [bgInitialRemovalC, bgInitialRemoval, jsMessageOr, hmsg]
    · simp [bgInitialRemovalC, bgInitialRemoval]
    · simp [bgInitialRemovalC, bgInitialRemoval, hhist]
  · intro s app o r b hok
    by_cases hsig : stringIncludes r.body VEO_API_KEY_ERROR_MESSAGE = true
    · refine ⟨?_, ?_, ?_⟩ <;> simp [animatorDownload, hok, hsig]
    · refine ⟨?_, ?_, ?_⟩ <;> simp [animatorDownload, hok, hsig]

/-- C5 witness: a failing initial generation from the initial FaceSwap
configuration retains the message and leaves history and library unchanged. -/
theorem C5_witness :
    (fsGenerateC fsInitConfig demoImage (.error "backend down")).fs.error
        = some "backend down" ∧
    (fsGenerateC fsInitConfig demoImage (.error "backend down")).fs.editHistory
        = fsInitConfig.fs.editHistory ∧
    (fsGenerateC fsInitConfig demoImage (.error "backend down")).app.library
        = fsInitConfig.app.library ∧
    (fsGenerateC fsInitConfig demoImage (.error "backend down")).app.toasts
        = fsInitConfig.app.toasts :=
  C5_theorem.1 fsInitConfig demoImage "backend down" FSReachable.init
    (Or.inl (by decide)) (by decide)

/-- C6: the poller enters the polling loop right after submission and, when
the submit response is still pending, performs exactly k wait-then-query
cycles when the k-th status-query response is the first reported as done;
on completion it throws exactly when the final response carries no download
reference. -/
theorem C6_theorem :
    ∀ (submitOp d : VideoOp) (pre rest : List VideoOp),
      submitOp.done = false → (∀ p ∈ pre, p.done = false) → d.done = true →
      pollLoop submitOp (pre ++ d :: rest) = some (pre.length + 1, d) ∧
      animateCharacter submitOp (pre ++ d :: rest)
          = some (pre.length + 1, animateFinish d) ∧
      ((∃ e, animateFinish d = .error e) ↔ d.uri = none) := by
  intro submitOp d pre rest hsub hpre hd
  have hloop := pollLoop_first_done submitOp d pre rest hsub hpre hd
  refine ⟨hloop, ?_, ?_⟩
  · simp [animateCharacter, hloop]
  · cases huri : d.uri with
    | none => simp [animateFinish, huri]
    | some u => simp [animateFinish, huri]

def opPending : VideoOp := { done := false, uri := none }

def opDone : VideoOp := { done := true, uri := some "R" }

/-- C6 witness: the spec scenario — a pending submit response, two pending
status reports, then done with reference R — performs exactly three
wait-then-query cycles and resolves R. -/
theorem C6_witness :
    pollLoop opPending ([opPending, opPending] ++ opDone :: []) = some (3, opDone) ∧
    animateCharacter opPending ([opPending, opPending] ++ opDone :: [])
        = some (3, animateFinish opDone) ∧
    ((∃ e, animateFinish opDone = .error e) ↔ opDone.uri = none) :=
  C6_theorem opPending opDone [opPending, opPending] [] rfl (by decide) rfl

/-- C7 counterexample: with FaceSwap history [A, B] at cursor 1 over
original upload O, the before/after pair shown is (O, B) — the baseline is
the original upload, not the immediately preceding history entry A as the
claim states. -/
theorem C7_counterexample :
    fsBeforeAfter fsDemoPair = some ("O", "B") ∧
    jsIndex fsDemoPair.editHistory (fsDemoPair.editHistoryIndex - 1) = "A" ∧
    fsBeforeAfter fsDemoPair ≠
      some (jsIndex fsDemoPair.editHistory (fsDemoPair.editHistoryIndex - 1),
            jsIndex fsDemoPair.editHistory fsDemoPair.editHistoryIndex) := by
  refine ⟨by decide, by decide, ?_⟩
  decide

/-- C7 (amended): the FaceSwap and BackgroundRemover result views always
pair the original upload with the current entry, whatever the cursor
position; only the CreativeAssistant pairs adjacent history entries
(previous, current), and for its very first entry it shows the image alone
with no comparison. -/
theorem C7_amended_theorem :
    (∀ (s : FaceSwapState) (r o : String),
        fsResult s = some r → s.originalImage = some o →
        fsBeforeAfter s = some (o, r)) ∧
    (∀ (s : BGState) (r o : String),
        s.stage = .result → bgFinalResult s = some r → s.originalImage = some o →
        bgBeforeAfter s = some (o, r)) ∧
    (∀ s : CAState,
        jsIndex s.imageHistory (s.currentHistoryIndex - 1) ≠ "" →
        caImageView s
            = .comparison (jsIndex s.imageHistory (s.currentHistoryIndex - 1))
                (jsIndex s.imageHistory s.currentHistoryIndex)) ∧
    (∀ s : CAState, s.currentHistoryIndex = 0 →
        caImageView s = .single (caCurrentImage s)) := by
  refine ⟨?_, ?_, ?_, ?_⟩
  · intro s r o hr ho
    simp [fsBeforeAfter, hr, ho]
  · intro s r o hst hr ho
    simp [bgBeforeAfter, hst, hr, ho]
  · intro s hne
    simp [caImageView, caCurrentImage, hne]
  · intro s h0
    have : jsIndex s.imageHistory (s.currentHistoryIndex - 1) = "" := by
      rw [h0]
      simp [jsIndex]
    simp [caImageView, caCurrentImage, this]

/-- C7 witness: the FaceSwap part of the amended pairing evaluated on the
history [A, B] with cursor 1 and original O. -/
theorem C7_witness : fsBeforeAfter fsDemoPair = some ("O", "B") :=
  C7_amended_theorem.1 fsDemoPair "B" "O" (by decide) (by decide)

/-- C8: the iterate request of the CreativeAssistant supplies the prior
(newest) result as sole source image with an explicitly empty asset list,
whatever assets the session holds, so the assembled request is exactly one
instructional text part followed by exactly one image part. -/
theorem C8_theorem :
    ∀ (s : CAState) (p : String),
      (caIterateRequest s p).assets = [] ∧
      (caIterateRequest s p).sourceImage
          = some (dataUrlToImageFile
              (jsIndex s.imageHistory ((s.imageHistory.length : Int) - 1))) ∧
      generateImageParts (caIterateRequest s p)
          = [RequestPart.text p,
             RequestPart.image (dataUrlToImageFile
               (jsIndex s.imageHistory ((s.imageHistory.length : Int) - 1)))] := by
  intro s p
  refine ⟨rfl, rfl, ?_⟩
  simp [generateImageParts, caIterateRequest]

/-- First-save behaviour of the FaceSwap save handler. -/
theorem fsSave_fresh (s : FaceSwapState) (app : AppShared) (r o : String)
    (hr : fsResult s = some r) (ho : s.originalImage = some o)
    (hs : s.isSaved = false) :
    fsSave s app
      = ({ s with isSaved := true },
         appCreationComplete app
           { type := "Face Swap", imageUrl := r, originalUrl := some o }) := by
  unfold fsSave
  rw [hr, ho, hs]

/-- Repeat-save behaviour of the FaceSwap save handler. -/
theorem fsSave_already (s : FaceSwapState) (app : AppShared) (h : s.isSaved = true) :
    fsSave s app = (s, appToast app "Already saved!") := by
  unfold fsSave
  rcases hx : fsResult s with _ | r <;> rcases hy : s.originalImage with _ | o <;> rw [h]

/-- First-save behaviour of the CreativeAssistant save handler. -/
theorem caSave_fresh (s : CAState) (app : AppShared)
    (hne : caCurrentImage s ≠ "") (hmem : caCurrentImage s ∉ s.savedImageUrls) :
    caSave s app
      = ({ s with savedImageUrls := s.savedImageUrls ++ [caCurrentImage s] },
         appCreationComplete app
           { type := jacksonsLabel, imageUrl := caCurrentImage s }) := by
  have hcond : (caCurrentImage s != ""
      && !(s.savedImageUrls.contains (caCurrentImage s))) = true := by
    simp [hne, hmem]
  simp only [caSave]
  rw [if_pos hcond]

/-- Repeat-save behaviour of the CreativeAssistant save handler. -/
theorem caSave_already (s : CAState) (app : AppShared)
    (h : caCurrentImage s ∈ s.savedImageUrls) :
    caSave s app = (s, appToast app "Already saved!") := by
  have hcond : (caCurrentImage s != ""
      && !(s.savedImageUrls.contains (caCurrentImage s))) = false := by
    simp [h]
  simp only [caSave]
  rw [if_neg (by rw [hcond]; simp)]

/-- C9: saving is idempotent at the workflow layer for both the FaceSwap
save and the CreativeAssistant save: the first save appends exactly one
library entry and marks the artifact saved; the second attempt leaves the
library and workflow state unchanged, appending only the already-saved
toast and touching no error state. -/
theorem C9_theorem :
    (∀ (s : FaceSwapState) (app : AppShared) (r o : String),
        fsResult s = some r → s.originalImage = some o → s.isSaved = false →
        (fsSave s app).2.library
            = { type := "Face Swap", imageUrl := r, originalUrl := some o } :: app.library ∧
        (fsSave s app).1.isSaved = true ∧
        (fsSave (fsSave s app).1 (fsSave s app).2).2.library = (fsSave s app).2.library ∧
        (fsSave (fsSave s app).1 (fsSave s app).2).1 = (fsSave s app).1 ∧
        (fsSave (fsSave s app).1 (fsSave s app).2).2.toasts
            = (fsSave s app).2.toasts ++ ["Already saved!"] ∧
        (fsSave (fsSave s app).1 (fsSave s app).2).1.error = s.error) ∧
    (∀ (s : CAState) (app : AppShared),
        caCurrentImage s ≠ "" → caCurrentImage s ∉ s.savedImageUrls →
        (caSave s app).2.library
            = { type := jacksonsLabel, imageUrl := caCurrentImage s } :: app.library ∧
        (caSave s app).1.savedImageUrls = s.savedImageUrls ++ [caCurrentImage s] ∧
        (caSave (caSave s app).1 (caSave s app).2).2.library = (caSave s app).2.library ∧
        (caSave (caSave s app).1 (caSave s app).2).1 = (caSave s app).1 ∧
        (caSave (caSave s app).1 (caSave s app).2).2.toasts
            = (caSave s app).2.toasts ++ ["Already saved!"] ∧
        (caSave (caSave s app).1 (caSave s app).2).1.error = s.error) := by
  constructor
  · intro s app r o hr ho hs
    have h1 := fsSave_fresh s app r o hr ho hs
    have h2 := fsSave_already ({ s with isSaved := true } : FaceSwapState)
      (appCreationComplete app
        { type := "Face Swap", imageUrl := r, originalUrl := some o }) rfl
    rw [h1]
    simp only [h2]
    simp [appCreationComplete, appToast]
  · intro s app hne hmem
    have h1 := caSave_fresh s app hne hmem
    have h2 := caSave_already
      ({ s with savedImageUrls := s.savedImageUrls ++ [caCurrentImage s] } : CAState)
      (appCreationComplete app { type := jacksonsLabel, imageUrl := caCurrentImage s })
      (by simp [caCurrentImage])
    rw [h1]
    simp only [h2]
    simp [appCreationComplete, appToast]

/-- C9 witness: on the FaceSwap state with history [A, B, C], cursor 2 and
original O, the first save prepends one entry and the second attempt leaves
the library unchanged, toasting instead. -/
theorem C9_witness :
    (fsSave fsDemo appInit).2.library
        = [{ type := "Face Swap", imageUrl := "C", originalUrl := some "O" }] ∧
    (fsSave fsDemo appInit).1.isSaved = true ∧
    (fsSave (fsSave fsDemo appInit).1 (fsSave fsDemo appInit).2).2.library
        = (fsSave fsDemo appInit).2.library ∧
    (fsSave (fsSave fsDemo appInit).1 (fsSave fsDemo appInit).2).1
        = (fsSave fsDemo appInit).1 ∧
    (fsSave (fsSave fsDemo appInit).1 (fsSave fsDemo appInit).2).2.toasts
        = (fsSave fsDemo appInit).2.toasts ++ ["Already saved!"] ∧
    (fsSave (fsSave fsDemo appInit).1 (fsSave fsDemo appInit).2).1.error
        = fsDemo.error := by
  have h := C9_theorem.1 fsDemo appInit "C" "O" (by decide) (by decide) (by decide)
  exact ⟨h.1, h.2.1, h.2.2.1, h.2.2.2.1, h.2.2.2.2.1, h.2.2.2.2.2⟩

/-- C10: the CreativeAssistant iterate handler bases a new generation on the
newest (last) history entry regardless of the viewed cursor position: for
every state whose cursor is strictly before the last entry, the request
source is the last entry, and a successful iteration appends the result
after all existing entries and moves the cursor to the new last index. -/
theorem C10_theorem :
    ∀ (s : CAState) (p r : String),
      s.currentHistoryIndex < (s.imageHistory.length : Int) - 1 →
      (caIterateRequest s p).sourceImage
          = some (dataUrlToImageFile
              (jsIndex s.imageHistory ((s.imageHistory.length : Int) - 1))) ∧
      (caIterate s p (.ok r)).imageHistory = s.imageHistory ++ [r] ∧
      (caIterate s p (.ok r)).currentHistoryIndex = (s.imageHistory.length : Int) ∧
      (caIterate s p (.ok r)).currentHistoryIndex
          = ((caIterate s p (.ok r)).imageHistory.length : Int) - 1 := by
  intro s p r _
  refine ⟨rfl, rfl, ?_, ?_⟩
  · simp [caIterate]
  · simp [caIterate]

/-- C10 witness: from history [A, B, C] with the user viewing entry 0,
iterating appends after C and moves the cursor to the new entry 3. -/
theorem C10_witness :
    (caIterate caDemo "more dramatic" (.ok "D")).imageHistory = ["A", "B", "C", "D"] ∧
    (caIterate caDemo "more dramatic" (.ok "D")).currentHistoryIndex = 3 := by
  have h := C10_theorem caDemo "more dramatic" "D" (by decide)
  exact ⟨h.2.1, h.2.2.1⟩
